import Mathlib

/-!
Verification of the `User` model declared in `app/models.py`.

The source declares a single SQLAlchemy model mapped to the table `user`:

  id         = Column(Integer, primary_key=True, index=True)
  email      = Column(String, unique=True, index=True)
  password   = Column(String)
  role       = Column(String, default="user")
  created_at = Column(DateTime(timezone=True), server_default=func.now())

We embed the persisted row, the insertion request as the ORM sees it, and
the storage engine's insertion step.  Nullable columns are `Option`s.  A
request field is `Option (Option α)`: `none` means the caller did not set
the attribute at all (the column is then absent from the INSERT statement),
`some none` means the caller explicitly assigned NULL, and `some (some v)`
an explicit value.  This distinction is what drives SQLAlchemy defaults:

  * `default="user"` is a client-side insert default: it fires exactly when
    the attribute is unset; an explicit NULL is sent to the database as is.
  * `server_default=func.now()` is a database-level default: it fires
    exactly when the column is absent from the INSERT; an explicit value
    (or explicit NULL) is stored as sent.
  * `unique=True` on a nullable column is a PostgreSQL unique index, which
    compares only non-NULL values: rows with NULL email never conflict.
  * the `Integer` primary key is populated from the table's sequence;
    we model the sequence as a `nextId` counter carried by the table state.

Timestamps are modelled as natural numbers (an abstract monotone clock).
-/

/-- Persisted row of the table `user` (class `User` in `app/models.py`).
`id` is the non-nullable integer primary key; every other column is
nullable, as in the source, where no column carries `nullable=False`. -/
structure User where
  id : Nat
  email : Option String
  password : Option String
  role : Option String
  created_at : Option Nat
deriving DecidableEq, Repr

/-- An insertion request as the ORM receives it.  For each non-primary-key
column: `none` = attribute never set, `some none` = attribute explicitly
set to NULL, `some (some v)` = attribute explicitly set to `v`. -/
structure UserInsert where
  email : Option (Option String)
  password : Option (Option String)
  role : Option (Option String)
  created_at : Option (Option Nat)
deriving DecidableEq, Repr

/-- State of the table `user`: the stored rows together with the
primary-key sequence that backs the `Integer` primary key column. -/
structure UserTable where
  rows : List User
  nextId : Nat
deriving DecidableEq, Repr

/-- The empty table, with the primary-key sequence at its start. -/
def UserTable.empty : UserTable := ⟨[], 0⟩

/-- The only storage-layer error the schema can raise on insertion: the
violation of the unique index on `email`. -/
inductive InsertError where
  | uniqueViolation
deriving DecidableEq, Repr

/-- Value stored in `email`: the column has no default, so an unset
attribute and an explicit NULL both store NULL. -/
def UserInsert.effEmail (req : UserInsert) : Option String :=
  match req.email with
  | none => none
  | some v => v

/-- Value stored in `password`: no default, same as `email`. -/
def UserInsert.effPassword (req : UserInsert) : Option String :=
  match req.password with
  | none => none
  | some v => v

/-- Value stored in `role`: the client-side default `"user"` fires when the
attribute is unset; an explicitly assigned value (NULL included) is stored
as given. -/
def UserInsert.effRole (req : UserInsert) : Option String :=
  match req.role with
  | none => some "user"
  | some v => v

/-- Value stored in `created_at`: the server default `now()` fires when the
column is absent from the INSERT; an explicitly assigned value (NULL
included) is stored as given.  `now` is the engine's clock at the moment
the INSERT executes. -/
def UserInsert.effCreatedAt (req : UserInsert) (now : Nat) : Option Nat :=
  match req.created_at with
  | none => some now
  | some v => v

/-- Does the table already hold a row whose `email` is the (non-NULL)
value `e`?  This is what the unique index on `email` checks. -/
def UserTable.hasEmail (tbl : UserTable) (e : String) : Bool :=
  tbl.rows.any fun r => r.email = some e

/-- Does inserting `req` violate the unique index on `email`?  NULL emails
never conflict: a PostgreSQL unique index compares only non-NULL values. -/
def UserTable.emailConflict (tbl : UserTable) (req : UserInsert) : Bool :=
  match req.effEmail with
  | some e => tbl.hasEmail e
  | none => false

/-- The row a request materialises into, given the id drawn from the
sequence and the engine clock `now`. -/
def UserInsert.toRow (req : UserInsert) (id now : Nat) : User :=
  ⟨id, req.effEmail, req.effPassword, req.effRole, req.effCreatedAt now⟩

/-- The storage engine's insertion step for the table `user` at engine
clock `now`.  It returns the post-state of the table and either the
persisted row or the constraint-violation error; on error the table is
returned unchanged. -/
def User.insert (tbl : UserTable) (now : Nat) (req : UserInsert) :
    UserTable × Except InsertError User :=
  if tbl.emailConflict req then
    (tbl, Except.error InsertError.uniqueViolation)
  else
    (⟨tbl.rows ++ [req.toRow tbl.nextId now], tbl.nextId + 1⟩,
      Except.ok (req.toRow tbl.nextId now))

/-- Well-formedness of the primary key: every stored `id` is below the
sequence value, and the stored ids are pairwise distinct. -/
@[reducible] def UserTable.IdsOk (tbl : UserTable) : Prop :=
  (∀ r ∈ tbl.rows, r.id < tbl.nextId) ∧ (tbl.rows.map User.id).Nodup

/-- C1: on an insertion whose request never sets `role`, the persisted
row's `role` is the default `"user"`. -/
theorem User.insert_role_defaults_to_user
    (tbl : UserTable) (now : Nat) (req : UserInsert) (row : User)
    (hrole : req.role = none)
    (hok : (User.insert tbl now req).snd = Except.ok row) :
    row.role = some "user" := by
  unfold User.insert at hok
  split at hok
  · simp at hok
  · simp at hok
    rw [← hok]
    simp [UserInsert.toRow, UserInsert.effRole, hrole]

/-- C1 witness: a concrete insertion into the empty table with `role`
unset yields a row whose `role` is `"user"`. -/
theorem User.insert_role_defaults_to_user_witness :
    (User.mk 0 (some "a@x.com") (some "p1") (some "user") (some 7)).role
      = some "user" :=
  User.insert_role_defaults_to_user UserTable.empty 7
    ⟨some (some "a@x.com"), some (some "p1"), none, none⟩
    (User.mk 0 (some "a@x.com") (some "p1") (some "user") (some 7))
    rfl rfl

/-- C2: if an insertion carrying the email value `e` succeeds, then a
second insertion carrying the same email value `e` fails with the
uniqueness-violation error and leaves the table state unchanged. -/
theorem User.insert_duplicate_email_fails
    (tbl tbl₁ : UserTable) (t₁ t₂ : Nat) (req₁ req₂ : UserInsert)
    (r₁ : User) (e : String)
    (h₁ : req₁.email = some (some e)) (h₂ : req₂.email = some (some e))
    (hfirst : User.insert tbl t₁ req₁ = (tbl₁, Except.ok r₁)) :
    User.insert tbl₁ t₂ req₂
      = (tbl₁, Except.error InsertError.uniqueViolation) := by
  unfold User.insert at hfirst
  split at hfirst
  · simp at hfirst
  · simp only [Prod.mk.injEq] at hfirst
    obtain ⟨htbl, -⟩ := hfirst
    have hconf : tbl₁.emailConflict req₂ = true := by
      rw [← htbl]
      simp [UserTable.emailConflict, UserInsert.effEmail, h₂,
        UserTable.hasEmail, UserInsert.toRow, h₁]
    unfold User.insert
    rw [hconf]
    simp

/-- C2 witness: inserting `a@x.com` into the empty table succeeds; the
second insertion of `a@x.com` fails with the uniqueness violation and
leaves the one-row table unchanged. -/
theorem User.insert_duplicate_email_fails_witness :
    User.insert
        ⟨[⟨0, some "a@x.com", some "p1", some "user", some 7⟩], 1⟩ 8
        ⟨some (some "a@x.com"), some (some "p2"), none, none⟩
      = (⟨[⟨0, some "a@x.com", some "p1", some "user", some 7⟩], 1⟩,
          Except.error InsertError.uniqueViolation) :=
  User.insert_duplicate_email_fails UserTable.empty
    ⟨[⟨0, some "a@x.com", some "p1", some "user", some 7⟩], 1⟩ 7 8
    ⟨some (some "a@x.com"), some (some "p1"), none, none⟩
    ⟨some (some "a@x.com"), some (some "p2"), none, none⟩
    ⟨0, some "a@x.com", some "p1", some "user", some 7⟩
    "a@x.com" rfl rfl rfl

/-- C6: on an insertion whose request explicitly sets `role` to a value
`v`, the persisted row's `role` is `v`; the default does not replace it. -/
theorem User.insert_explicit_role_persisted
    (tbl : UserTable) (now : Nat) (req : UserInsert) (row : User) (v : String)
    (hrole : req.role = some (some v))
    (hok : (User.insert tbl now req).snd = Except.ok row) :
    row.role = some v := by
  unfold User.insert at hok
  split at hok
  · simp at hok
  · simp at hok
    rw [← hok]
    simp [UserInsert.toRow, UserInsert.effRole, hrole]

/-- C6 witness: inserting with an explicit `role := "admin"` persists
`"admin"`. -/
theorem User.insert_explicit_role_persisted_witness :
    (User.mk 0 (some "b@x.com") (some "p3") (some "admin") (some 7)).role
      = some "admin" :=
  User.insert_explicit_role_persisted UserTable.empty 7
    ⟨some (some "b@x.com"), some (some "p3"), some (some "admin"), none⟩
    (User.mk 0 (some "b@x.com") (some "p3") (some "admin") (some 7))
    "admin" rfl rfl

/-- C9: on an insertion whose request explicitly sets `created_at` to a
value `t`, the persisted row's `created_at` is `t`; the server default
`now()` applies only when the caller leaves the column unset. -/
theorem User.insert_explicit_created_at_persisted
    (tbl : UserTable) (now : Nat) (req : UserInsert) (row : User) (t : Nat)
    (hts : req.created_at = some (some t))
    (hok : (User.insert tbl now req).snd = Except.ok row) :
    row.created_at = some t := by
  unfold User.insert at hok
  split at hok
  · simp at hok
  · simp at hok
    rw [← hok]
    simp [UserInsert.toRow, UserInsert.effCreatedAt, hts]

/-- C9 witness: inserting at engine clock 100 with an explicit
`created_at := 5` persists 5, not 100. -/
theorem User.insert_explicit_created_at_persisted_witness :
    (User.mk 0 (some "a@x.com") (some "p1") (some "user") (some 5)).created_at
      = some 5 :=
  User.insert_explicit_created_at_persisted UserTable.empty 100
    ⟨some (some "a@x.com"), some (some "p1"), none, some (some 5)⟩
    (User.mk 0 (some "a@x.com") (some "p1") (some "user") (some 5))
    5 rfl rfl

/-- C10: on an insertion whose request explicitly sets `role` to NULL,
the persisted row's `role` is NULL, not the default `"user"`: the default
is a client-side insert default with no database-level counterpart, so it
fires only when the attribute is left unset. -/
theorem User.insert_role_explicit_null_persisted
    (tbl : UserTable) (now : Nat) (req : UserInsert) (row : User)
    (hrole : req.role = some none)
    (hok : (User.insert tbl now req).snd = Except.ok row) :
    row.role = none := by
  unfold User.insert at hok
  split at hok
  · simp at hok
  · simp at hok
    rw [← hok]
    simp [UserInsert.toRow, UserInsert.effRole, hrole]

/-- C10 witness: inserting with `role` explicitly NULL persists NULL. -/
theorem User.insert_role_explicit_null_persisted_witness :
    (User.mk 0 (some "a@x.com") (some "p1") none (some 7)).role = none :=
  User.insert_role_explicit_null_persisted UserTable.empty 7
    ⟨some (some "a@x.com"), some (some "p1"), some none, none⟩
    (User.mk 0 (some "a@x.com") (some "p1") none (some 7))
    rfl rfl

/-- C8: the schema places no non-null constraint on `email`: an insertion
whose request leaves `email` unset, or explicitly supplies NULL for it,
is not rejected, and the persisted row's `email` is NULL. -/
theorem User.insert_email_omitted_ok_and_null
    (tbl : UserTable) (now : Nat) (req : UserInsert)
    (hmail : req.email = none ∨ req.email = some none) :
    (User.insert tbl now req).snd.isOk = true ∧
      ∀ row, (User.insert tbl now req).snd = Except.ok row →
        row.email = none := by
  have heff : req.effEmail = none := by
    rcases hmail with h | h <;> simp [UserInsert.effEmail, h]
  have hconf : tbl.emailConflict req = false := by
    simp [UserTable.emailConflict, heff]
  unfold User.insert
  rw [hconf]
  refine ⟨rfl, ?_⟩
  intro row hrow
  simp at hrow
  rw [← hrow]
  simp [UserInsert.toRow, heff]

/-- C8 witness: a concrete insertion that explicitly supplies NULL for
`email` succeeds and stores a NULL email. -/
theorem User.insert_email_omitted_ok_and_null_witness :
    (User.insert UserTable.empty 7
        ⟨some none, some (some "p1"), none, none⟩).snd.isOk = true ∧
      ∀ row, (User.insert UserTable.empty 7
          ⟨some none, some (some "p1"), none, none⟩).snd = Except.ok row →
        row.email = none :=
  User.insert_email_omitted_ok_and_null UserTable.empty 7
    ⟨some none, some (some "p1"), none, none⟩ (Or.inr rfl)

/-- Helper: an insertion succeeds exactly when the unique index on
`email` raises no conflict. -/
theorem User.insert_isOk_eq (tbl : UserTable) (now : Nat) (req : UserInsert) :
    (User.insert tbl now req).snd.isOk = !tbl.emailConflict req := by
  unfold User.insert
  split
  next hc =>
    rw [hc]
    rfl
  next hc =>
    simp only [Bool.not_eq_true] at hc
    rw [hc]
    rfl

/-- C7: the schema validates no field contents: an insertion fails exactly
when its request carries a non-NULL `email` already stored in the table,
whatever the string contents of `email`, `password` and `role`; the sole
schema-level failure is the `email` uniqueness violation. -/
theorem User.insert_fails_only_on_duplicate_email
    (tbl : UserTable) (now : Nat) (req : UserInsert) :
    (User.insert tbl now req).snd.isOk = false ↔
      ∃ e, req.effEmail = some e ∧ tbl.hasEmail e = true := by
  rw [User.insert_isOk_eq]
  unfold UserTable.emailConflict
  cases he : req.effEmail with
  | none => simp
  | some e => simp [he]

/-- C3 counterexample: at engine clock 100, an insertion that explicitly
sets `created_at := 5` persists 5, not a value produced by the engine's
current-time function: the caller's value determines the persisted value,
so callers can override `created_at`. -/
theorem User.created_at_caller_override_cex :
    (User.insert UserTable.empty 100
        ⟨some (some "a@x.com"), some (some "p1"), none, some (some 5)⟩).snd
      = Except.ok (User.mk 0 (some "a@x.com") (some "p1") (some "user") (some 5))
      ∧ (some 5 : Option Nat) ≠ some 100 :=
  ⟨rfl, by decide⟩

/-- C3 (amended): when the request leaves `created_at` unset, the
persisted value is the one produced by the storage engine's current-time
function at the moment the INSERT executes; a caller-supplied value,
however, is persisted as given. -/
theorem User.insert_created_at_from_engine_clock_when_omitted
    (tbl : UserTable) (now : Nat) (req : UserInsert) (row : User)
    (hts : req.created_at = none)
    (hok : (User.insert tbl now req).snd = Except.ok row) :
    row.created_at = some now := by
  unfold User.insert at hok
  split at hok
  · simp at hok
  · simp at hok
    rw [← hok]
    simp [UserInsert.toRow, UserInsert.effCreatedAt, hts]

/-- C3 (amended) witness: inserting at engine clock 7 with `created_at`
unset persists the clock value 7. -/
theorem User.insert_created_at_from_engine_clock_when_omitted_witness :
    (User.mk 0 (some "d@x.com") (some "p1") (some "user") (some 7)).created_at
      = some 7 :=
  User.insert_created_at_from_engine_clock_when_omitted UserTable.empty 7
    ⟨some (some "d@x.com"), some (some "p1"), none, none⟩
    (User.mk 0 (some "d@x.com") (some "p1") (some "user") (some 7))
    rfl rfl

/-- C5 counterexample: an insertion that explicitly sets `created_at` to
NULL succeeds, and the persisted `created_at` is NULL: the persisted
`created_at` of an arbitrary insertion need not be non-null. -/
theorem User.created_at_nullable_cex :
    (User.insert UserTable.empty 100
        ⟨some (some "c@x.com"), some (some "p1"), none, some none⟩).snd
      = Except.ok (User.mk 0 (some "c@x.com") (some "p1") (some "user") none) :=
  rfl

/-- C5 (amended): for every insertion whose request leaves `created_at`
unset, the persisted `created_at` is non-null and is at or after any
request-issue time that does not exceed the engine clock at the INSERT. -/
theorem User.insert_created_at_nonnull_and_after_request
    (tbl : UserTable) (now treq : Nat) (req : UserInsert) (row : User)
    (hts : req.created_at = none) (hreq : treq ≤ now)
    (hok : (User.insert tbl now req).snd = Except.ok row) :
    row.created_at.isSome = true ∧
      ∀ t, row.created_at = some t → treq ≤ t := by
  unfold User.insert at hok
  split at hok
  · simp at hok
  · simp at hok
    rw [← hok]
    simp [UserInsert.toRow, UserInsert.effCreatedAt, hts]
    omega

/-- C5 (amended) witness: a request issued at time 5 and executed at
engine clock 7 with `created_at` unset persists a non-null timestamp not
before 5. -/
theorem User.insert_created_at_nonnull_and_after_request_witness :
    (User.mk 0 (some "e@x.com") (some "p1") (some "user") (some 7)).created_at.isSome
        = true ∧
      ∀ t, (User.mk 0 (some "e@x.com") (some "p1") (some "user")
          (some 7)).created_at = some t → 5 ≤ t :=
  User.insert_created_at_nonnull_and_after_request UserTable.empty 7 5
    ⟨some (some "e@x.com"), some (some "p1"), none, none⟩
    (User.mk 0 (some "e@x.com") (some "p1") (some "user") (some 7))
    rfl (by decide) rfl

/-- C4: ids are non-null by construction, and an insertion preserves
well-formedness of the primary key — every persisted `id` stays below the
sequence value and the persisted ids stay pairwise distinct — while every
previously persisted row is carried over unchanged, so a stored row's
`id` never changes. -/
theorem User.insert_ids_unique_and_stable
    (tbl : UserTable) (now : Nat) (req : UserInsert)
    (h : tbl.IdsOk) :
    (User.insert tbl now req).fst.IdsOk ∧
      ∀ r ∈ tbl.rows, r ∈ (User.insert tbl now req).fst.rows := by
  obtain ⟨hlt, hnd⟩ := h
  unfold User.insert
  split
  · exact ⟨⟨hlt, hnd⟩, fun r hr => hr⟩
  · refine ⟨⟨?_, ?_⟩, ?_⟩
    · intro r hr
      simp only [List.mem_append, List.mem_singleton] at hr
      rcases hr with hr | hr
      · exact Nat.lt_succ_of_lt (hlt r hr)
      · rw [hr]
        exact Nat.lt_succ_self _
    · have hmem : tbl.nextId ∉ tbl.rows.map User.id := by
        intro hmem
        obtain ⟨r, hr, hid⟩ := List.mem_map.mp hmem
        have := hlt r hr
        omega
      simp [UserInsert.toRow, List.nodup_append, hnd, hmem]
    · intro r hr
      simp only [List.mem_append, List.mem_singleton]
      exact Or.inl hr

/-- C4 witness: a concrete one-row table with a well-formed primary key
keeps it well-formed across an insertion, and the stored row survives
unchanged. -/
theorem User.insert_ids_unique_and_stable_witness :
    (UserTable.mk [User.mk 0 (some "a@x.com") (some "p1") (some "user") (some 7)]
        1).IdsOk ∧
      ((User.insert
            ⟨[User.mk 0 (some "a@x.com") (some "p1") (some "user") (some 7)], 1⟩ 8
            ⟨some (some "b@x.com"), some (some "p2"), none, none⟩).fst.IdsOk ∧
        ∀ r ∈ [User.mk 0 (some "a@x.com") (some "p1") (some "user") (some 7)],
          r ∈ (User.insert
            ⟨[User.mk 0 (some "a@x.com") (some "p1") (some "user") (some 7)], 1⟩ 8
            ⟨some (some "b@x.com"), some (some "p2"), none, none⟩).fst.rows) :=
  ⟨by decide,
    User.insert_ids_unique_and_stable
      ⟨[User.mk 0 (some "a@x.com") (some "p1") (some "user") (some 7)], 1⟩ 8
      ⟨some (some "b@x.com"), some (some "p2"), none, none⟩ (by decide)⟩
